import Mathlib

/-!
Verification of the highlight/session correlation store of the
sioyek AI chat extension (`sioyek_ai/database.py`, `sioyek_ai/ask_ai.py`).

The sqlite stores are embedded shallowly: each table is a list of row
structures inside a `Store`, `lastrowid` is a per-table counter, and the
wall clock `_utc_now` (microsecond-precision UTC strings, strictly
increasing between successive store operations of one invocation) is a
`Nat` tick counter that each timestamp-reading operation samples and
advances.  SQL floating-point coordinates are embedded as rationals.
`ORDER BY` is embedded as `List.insertionSort`; with the distinct sort
keys produced by the tick clock this agrees with any sqlite ordering.
-/

namespace SioyekAI

/-- A row of the externally owned `highlights` table
(columns used by `database.py`: id, document_path, desc, type,
begin_x, begin_y, end_x, end_y, is_ai). -/
structure Highlight where
  id : Nat
  document_path : String
  desc : String
  type : String
  begin_x : ℚ
  begin_y : ℚ
  end_x : ℚ
  end_y : ℚ
  is_ai : Bool
  deriving Repr, DecidableEq

/-- A row of the `ai_sessions` table.  Text columns are nullable in the
schema, hence `Option String`; `metadata_json` holds the decoded JSON
object (`json.dumps`/`json.loads` round-trip) as a key/value list. -/
structure SessionRow where
  id : Nat
  highlight_id : Option Nat
  document_path : String
  selection_text : Option String
  question : Option String
  answer_preview : Option String
  context_snippet : Option String
  metadata_json : Option (List (String × String))
  created_at : Nat
  updated_at : Nat
  deriving Repr, DecidableEq

/-- A row of the `ai_messages` table. -/
structure MessageRow where
  id : Nat
  session_id : Nat
  role : String
  content : String
  created_at : Nat
  deriving Repr, DecidableEq

/-- The `SessionSummary` dataclass of `database.py`. -/
structure SessionSummary where
  id : Nat
  highlight_id : Option Nat
  document_path : String
  created_at : Nat
  updated_at : Nat
  selection_text : String
  question : String
  answer_preview : String
  context_snippet : String
  metadata : List (String × String)
  deriving Repr, DecidableEq

/-- The `Message` dataclass of `database.py`. -/
structure Message where
  role : String
  content : String
  created_at : Nat
  deriving Repr, DecidableEq

/-- The shared sqlite store (tables `highlights`, `ai_sessions`,
`ai_messages`), plus the `lastrowid` counters of the integer primary
keys and the tick clock embedding `_utc_now`. -/
structure Store where
  highlights : List Highlight
  sessions : List SessionRow
  messages : List MessageRow
  nextHighlightId : Nat
  nextSessionId : Nat
  nextMessageId : Nat
  clock : Nat
  deriving Repr, DecidableEq

/-- Row ids already present are below the `lastrowid` counters, as sqlite
guarantees for `INTEGER PRIMARY KEY` rowid allocation. -/
def Store.WF (s : Store) : Prop :=
  (∀ h ∈ s.highlights, h.id < s.nextHighlightId) ∧
  (∀ r ∈ s.sessions, r.id < s.nextSessionId) ∧
  (∀ m ∈ s.messages, m.id < s.nextMessageId)

/-- The row filter of `find_highlight`: same document and all four
coordinate components within strictly less than `tolerance`
(`ABS(begin_x - ?) < ?` and so on). -/
def hlMatches (document_path : String) (begin_x begin_y end_x end_y tolerance : ℚ)
    (h : Highlight) : Bool :=
  h.document_path == document_path &&
    decide (|h.begin_x - begin_x| < tolerance) &&
    decide (|h.begin_y - begin_y| < tolerance) &&
    decide (|h.end_x - end_x| < tolerance) &&
    decide (|h.end_y - end_y| < tolerance)

/-- Embedding of `DatabaseManager.find_highlight`: `SELECT id FROM highlights WHERE`
the tolerance filter holds, `ORDER BY id DESC LIMIT 1` — the greatest
matching id, or `None`. -/
def find_highlight (s : Store) (document_path : String)
    (begin_x begin_y end_x end_y : ℚ) (tolerance : ℚ := 1/100) : Option Nat :=
  ((s.highlights.filter
      (hlMatches document_path begin_x begin_y end_x end_y tolerance)).map
    (fun h => h.id)).max?

/-- Embedding of `DatabaseManager.insert_highlight`: dedup via `find_highlight`; on a
hit, `UPDATE highlights SET desc = ?, type = ?, is_ai = 1 WHERE id = ?`
and return the existing id; otherwise insert a fresh row with `is_ai = 1`
and return `lastrowid`. -/
def insert_highlight (s : Store) (document_path selection_text highlight_type : String)
    (begin_x begin_y end_x end_y : ℚ) : Store × Nat :=
  match find_highlight s document_path begin_x begin_y end_x end_y with
  | some existing =>
      ({ s with highlights := s.highlights.map (fun h =>
            if h.id = existing then
              { h with desc := selection_text, type := highlight_type, is_ai := true }
            else h) },
        existing)
  | none =>
      let hid := s.nextHighlightId
      ({ s with
          highlights := s.highlights ++
            [{ id := hid, document_path := document_path, desc := selection_text,
               type := highlight_type, begin_x := begin_x, begin_y := begin_y,
               end_x := end_x, end_y := end_y, is_ai := true }],
          nextHighlightId := hid + 1 },
        hid)

/-- Embedding of `DatabaseManager.delete_highlight`: `DELETE FROM highlights WHERE id = ?`.
With `PRAGMA foreign_keys = ON` this cascades to `ai_sessions` rows whose
`highlight_id` references the deleted highlight, and from those to their
`ai_messages` rows. -/
def delete_highlight (s : Store) (highlight_id : Nat) : Store :=
  let deadSessionIds :=
    (s.sessions.filter (fun r => r.highlight_id == some highlight_id)).map
      (fun r => r.id)
  { s with
      highlights := s.highlights.filter (fun h => h.id != highlight_id),
      sessions := s.sessions.filter (fun r => r.highlight_id != some highlight_id),
      messages := s.messages.filter (fun m => !(deadSessionIds.contains m.session_id)) }

/-- The `ORDER BY updated_at DESC` ordering over session rows. -/
def sortByUpdatedDesc (rows : List SessionRow) : List SessionRow :=
  rows.insertionSort (fun a b => b.updated_at ≤ a.updated_at)

/-- The `ORDER BY created_at ASC` ordering over message rows. -/
def sortByCreatedAsc (rows : List MessageRow) : List MessageRow :=
  rows.insertionSort (fun a b => a.created_at ≤ b.created_at)

/-- Build a `SessionSummary` from a full session row, with the
`row[...] or ""` / `json.loads(...) if ... else empty` defaults the
Python constructors apply (NULL becomes the empty value). -/
def rowToSummary (r : SessionRow) : SessionSummary :=
  { id := r.id
    highlight_id := r.highlight_id
    document_path := r.document_path
    created_at := r.created_at
    updated_at := r.updated_at
    selection_text := r.selection_text.getD ""
    question := r.question.getD ""
    answer_preview := r.answer_preview.getD ""
    context_snippet := r.context_snippet.getD ""
    metadata := r.metadata_json.getD [] }

/-- Embedding of `DatabaseManager.get_session_summary`: `SELECT ... WHERE id = ?`
with every summary column in the select list; raises `ValueError` when
the id is unknown. -/
def get_session_summary (s : Store) (session_id : Nat) : Except String SessionSummary :=
  match s.sessions.find? (fun r => r.id == session_id) with
  | none => .error ("Unknown session id: " ++ toString session_id)
  | some r => .ok (rowToSummary r)

/-- Embedding of `DatabaseManager.create_session`: one `_utc_now` timestamp used for
both `created_at` and `updated_at`, `answer_preview` inserted as `""`,
`context_snippet or None`, `json.dumps(metadata or ...)`; the returned
summary is re-read through `get_session_summary(lastrowid)`. -/
def create_session (s : Store) (highlight_id : Option Nat)
    (document_path selection_text question_text : String)
    (context_snippet : String := "") (metadata : Option (List (String × String)) := none) :
    Store × Except String SessionSummary :=
  let timestamp := s.clock
  let row : SessionRow :=
    { id := s.nextSessionId
      highlight_id := highlight_id
      document_path := document_path
      selection_text := some selection_text
      question := some question_text
      answer_preview := some ""
      context_snippet := if context_snippet = "" then none else some context_snippet
      metadata_json := some (metadata.getD [])
      created_at := timestamp
      updated_at := timestamp }
  let s1 : Store :=
    { s with
        sessions := s.sessions ++ [row]
        nextSessionId := s.nextSessionId + 1
        clock := s.clock + 1 }
  (s1, get_session_summary s1 s.nextSessionId)

/-- Embedding of `DatabaseManager.list_sessions_for_document`: sessions of the
document ordered by `updated_at` descending, each mapped to a summary. -/
def list_sessions_for_document (s : Store) (document_path_hash : String) :
    List SessionSummary :=
  (sortByUpdatedDesc
      (s.sessions.filter (fun r => r.document_path == document_path_hash))).map
    rowToSummary

/-- Embedding of `DatabaseManager.insert_message`: inserts one `ai_messages` row
stamped with `_utc_now` and returns the locally built `Message`;
touches no `ai_sessions` row. -/
def insert_message (s : Store) (session_id : Nat) (role content : String) :
    Store × Message :=
  let timestamp := s.clock
  ({ s with
      messages := s.messages ++
        [{ id := s.nextMessageId, session_id := session_id, role := role,
           content := content, created_at := timestamp }]
      nextMessageId := s.nextMessageId + 1
      clock := s.clock + 1 },
    { role := role, content := content, created_at := timestamp })

/-- Embedding of `DatabaseManager.update_session_preview`:
`UPDATE ai_sessions SET answer_preview = ?, updated_at = ? WHERE id = ?`
with a fresh `_utc_now` timestamp. -/
def update_session_preview (s : Store) (session_id : Nat) (preview : String) : Store :=
  let timestamp := s.clock
  { s with
      sessions := s.sessions.map (fun r =>
        if r.id = session_id then
          { r with answer_preview := some preview, updated_at := timestamp }
        else r)
      clock := s.clock + 1 }

/-- Embedding of `DatabaseManager.get_messages`: the session's messages ordered by
`created_at` ascending. -/
def get_messages (s : Store) (session_id : Nat) : List Message :=
  (sortByCreatedAsc (s.messages.filter (fun m => m.session_id == session_id))).map
    (fun m => { role := m.role, content := m.content, created_at := m.created_at })

/-! Embedding of `get_session_by_highlight` and the sqlite cursor row

`get_session_by_highlight` constructs its `SessionSummary` by key access
into the fetched `sqlite3.Row`, whose keys are exactly the columns of
the `SELECT` list.  Accessing a key that was not selected raises
`IndexError` in `sqlite3.Row`, so the row is embedded as an explicit
column-name/value list and key access as a fallible lookup. -/

/-- A sqlite column value as this code base uses them. -/
inductive Val where
  | vnull
  | vint (n : Nat)
  | vstr (t : String)
  | vmeta (m : List (String × String))
  deriving Repr, DecidableEq

/-- Key access into a `sqlite3.Row`: raises `IndexError` when the column was
not in the `SELECT` list. -/
def rowGet (row : List (String × Val)) (key : String) : Except String Val :=
  match row.find? (fun kv => kv.1 == key) with
  | some kv => .ok kv.2
  | none => .error ("No item with that key: " ++ key)

/-- A nullable text column as a `Val`. -/
def optStrVal : Option String → Val
  | none => .vnull
  | some t => .vstr t

/-- A nullable integer column as a `Val`. -/
def optIdVal : Option Nat → Val
  | none => .vnull
  | some n => .vint n

/-- Reading an integer column (`row["id"]`, timestamps). -/
def valAsNat : Val → Nat
  | .vint n => n
  | _ => 0

/-- Reading a nullable integer column (`row["highlight_id"]`). -/
def valAsOptNat : Val → Option Nat
  | .vint n => some n
  | _ => none

/-- Reading a text column with the `or ""` default. -/
def valAsStr : Val → String
  | .vstr t => t
  | _ => ""

/-- Reading `metadata_json` with the `json.loads(...) if ... else` default. -/
def valAsMeta : Val → List (String × String)
  | .vmeta m => m
  | _ => []

/-- The cursor row of `get_session_by_highlight`: its `SELECT` list is
`id, highlight_id, document_path, selection_text, question,
answer_preview, created_at, updated_at` — `context_snippet` and
`metadata_json` are not selected. -/
def selectByHighlightRow (r : SessionRow) : List (String × Val) :=
  [("id", .vint r.id),
   ("highlight_id", optIdVal r.highlight_id),
   ("document_path", .vstr r.document_path),
   ("selection_text", optStrVal r.selection_text),
   ("question", optStrVal r.question),
   ("answer_preview", optStrVal r.answer_preview),
   ("created_at", .vint r.created_at),
   ("updated_at", .vint r.updated_at)]

/-- Embedding of `DatabaseManager.get_session_by_highlight`: sessions referencing the
highlight, `ORDER BY updated_at DESC LIMIT 1`; `None` when there is no
row, otherwise a `SessionSummary` built by key access into the cursor
row (including the keys `context_snippet` and `metadata_json`, exactly
as the source constructor does). -/
def get_session_by_highlight (s : Store) (highlight_id : Nat) :
    Except String (Option SessionSummary) :=
  match (sortByUpdatedDesc
      (s.sessions.filter (fun r => r.highlight_id == some highlight_id))).head? with
  | none => .ok none
  | some r => do
      let row := selectByHighlightRow r
      let idv ← rowGet row "id"
      let hlv ← rowGet row "highlight_id"
      let dpv ← rowGet row "document_path"
      let selv ← rowGet row "selection_text"
      let qv ← rowGet row "question"
      let apv ← rowGet row "answer_preview"
      let cav ← rowGet row "created_at"
      let uav ← rowGet row "updated_at"
      let csv ← rowGet row "context_snippet"
      let mjv ← rowGet row "metadata_json"
      .ok (some
        { id := valAsNat idv
          highlight_id := valAsOptNat hlv
          document_path := valAsStr dpv
          selection_text := valAsStr selv
          question := valAsStr qv
          answer_preview := valAsStr apv
          created_at := valAsNat cav
          updated_at := valAsNat uav
          context_snippet := valAsStr csv
          metadata := valAsMeta mjv })

/-- Embedding of `DatabaseManager.delete_session`: `DELETE FROM ai_sessions WHERE id = ?`,
cascading to the session's messages. -/
def delete_session (s : Store) (session_id : Nat) : Store :=
  { s with
      sessions := s.sessions.filter (fun r => r.id != session_id)
      messages := s.messages.filter (fun m => m.session_id != session_id) }

/-! Embedding of `find_highlight_near`. -/

/-- One loop iteration of `find_highlight_near`, threading the running
`(best, best_score)` (with `none` standing for the initial
`best = None, best_score = inf`): the `highlight_type` truthiness filter,
the `require_ai` filter, the vertical band gate, the two penalties, and
the strict `score < best_score` replacement. -/
def fhnStep (x y tolerance : ℚ) (highlight_type : Option String) (require_ai : Bool)
    (acc : Option (Highlight × ℚ)) (record : Highlight) : Option (Highlight × ℚ) :=
  let tf := highlight_type.getD ""
  if tf ≠ "" ∧ record.type ≠ tf then acc
  else if require_ai && !record.is_ai then acc
  else
    let min_x := min record.begin_x record.end_x
    let max_x := max record.begin_x record.end_x
    let min_y := min record.begin_y record.end_y
    let max_y := max record.begin_y record.end_y
    if ¬ (min_y - tolerance ≤ y ∧ y ≤ max_y + tolerance) then acc
    else
      let horizontal_penalty : ℚ :=
        if min_x - tolerance ≤ x ∧ x ≤ max_x + tolerance then 0
        else min |x - min_x| |x - max_x|
      let vertical_penalty : ℚ :=
        if min_y ≤ y ∧ y ≤ max_y then 0
        else min |y - min_y| |y - max_y|
      let score := vertical_penalty * 2 + horizontal_penalty
      match acc with
      | none => some (record, score)
      | some best => if score < best.2 then some (record, score) else acc

/-- Embedding of `DatabaseManager.find_highlight_near`: iterate
`list_highlights_for_document` (the document's rows in store order) with
the loop body above and return the best record, if any. -/
def find_highlight_near (s : Store) (document_path : String) (x y : ℚ)
    (tolerance : ℚ := 48) (highlight_type : Option String := none)
    (require_ai : Bool := false) : Option Highlight :=
  ((s.highlights.filter (fun h => h.document_path == document_path)).foldl
      (fhnStep x y tolerance highlight_type require_ai) none).map
    (fun best => best.1)

/-! Spec-side restatement of the `find_highlight_near` selection, written
from the specification's words, to be compared with the fold above. -/

/-- Spec wording: a candidate passes the type (truthiness) and AI
filters and survives the vertical band gate
`min_y - tolerance ≤ y ≤ max_y + tolerance`, on the min/max-normalized
rectangle. -/
def specSurvives (y tolerance : ℚ) (highlight_type : Option String)
    (require_ai : Bool) (record : Highlight) : Bool :=
  let tf := highlight_type.getD ""
  !(tf ≠ "" ∧ record.type ≠ tf : Bool) &&
  !(require_ai && !record.is_ai) &&
  decide (min record.begin_y record.end_y - tolerance ≤ y ∧
          y ≤ max record.begin_y record.end_y + tolerance)

/-- Spec wording: score `2 × vertical_penalty + horizontal_penalty`,
where the horizontal penalty is zero inside the tolerance-widened
horizontal span and otherwise the distance to the nearer x edge, and the
vertical penalty is zero inside the tight vertical span and otherwise
the distance to the nearer y edge. -/
def specScore (x y tolerance : ℚ) (record : Highlight) : ℚ :=
  let min_x := min record.begin_x record.end_x
  let max_x := max record.begin_x record.end_x
  let min_y := min record.begin_y record.end_y
  let max_y := max record.begin_y record.end_y
  let horizontal_penalty : ℚ :=
    if min_x - tolerance ≤ x ∧ x ≤ max_x + tolerance then 0
    else min |x - min_x| |x - max_x|
  let vertical_penalty : ℚ :=
    if min_y ≤ y ∧ y ≤ max_y then 0
    else min |y - min_y| |y - max_y|
  2 * vertical_penalty + horizontal_penalty

/-- Spec wording: the first-seen candidate of strictly minimal score —
an element is kept over a later one of equal score. -/
def firstMinBy (score : Highlight → ℚ) : List Highlight → Option Highlight
  | [] => none
  | h :: hs =>
      match firstMinBy score hs with
      | none => some h
      | some b => if score b < score h then some b else some h

/-- The selection described by the specification: among the document's
candidates, keep the survivors of the filters and the vertical band
gate, then take the first-seen candidate of strictly minimal score. -/
def specFindNear (s : Store) (document_path : String) (x y : ℚ)
    (tolerance : ℚ) (highlight_type : Option String) (require_ai : Bool) :
    Option Highlight :=
  firstMinBy (specScore x y tolerance)
    ((s.highlights.filter (fun h => h.document_path == document_path)).filter
      (specSurvives y tolerance highlight_type require_ai))

/-! The ask-AI flow segment around `create_session` (`ask_ai.py`). -/

/-- The `_create_highlight` / `create_session` segment of
`ask_ai._execute`: `_create_highlight` yields `None` without touching
the store when the selection coordinates are missing, otherwise
find-or-creates the highlight; then `create_session` runs inside
`try/except` — on failure the compensating
`delete_highlight(highlight_id)` fires (when a highlight id exists)
before the exception propagates.  `session_fails` injects the exception
raised by `manager.create_session`. -/
def askFlowCreate (s0 : Store) (document_hash selected_text question_text : String)
    (coords : Option (ℚ × ℚ × ℚ × ℚ)) (context_snippet : String)
    (metadata : Option (List (String × String))) (session_fails : Bool) :
    Store × Except String SessionSummary :=
  let created :=
    match coords with
    | none => (s0, none)
    | some (bx, by1, ex, ey) =>
        let r := insert_highlight s0 document_hash selected_text "v" bx by1 ex ey
        (r.1, some r.2)
  let s1 := created.1
  let highlight_id := created.2
  if session_fails then
    match highlight_id with
    | some hid => (delete_highlight s1 hid, .error "create_session raised")
    | none => (s1, .error "create_session raised")
  else
    match create_session s1 highlight_id document_hash selected_text question_text
        context_snippet metadata with
    | (s2, .ok summary) => (s2, .ok summary)
    | (s2, .error e) =>
        match highlight_id with
        | some hid => (delete_highlight s2 hid, .error e)
        | none => (s2, .error e)

/-! Concrete fixtures used by witnesses and counterexamples. -/

/-- A store with no rows at all. -/
def emptyStore : Store :=
  { highlights := [], sessions := [], messages := [],
    nextHighlightId := 1, nextSessionId := 1, nextMessageId := 1, clock := 0 }

/-- A session row referencing highlight 1. -/
def sampleSession1 : SessionRow :=
  { id := 1, highlight_id := some 1, document_path := "doc",
    selection_text := some "sel", question := some "q",
    answer_preview := some "", context_snippet := none,
    metadata_json := some [], created_at := 0, updated_at := 0 }

/-- A store holding exactly `sampleSession1`. -/
def sampleStore1 : Store :=
  { highlights := [], sessions := [sampleSession1], messages := [],
    nextHighlightId := 1, nextSessionId := 2, nextMessageId := 1, clock := 1 }

/-- C1: `get_session_by_highlight` returns `None` when no session
references the highlight; but when a session does reference it, the
summary constructor accesses the cursor-row keys `context_snippet` and
`metadata_json`, which the `SELECT` list of this query does not include,
so `sqlite3.Row` raises `IndexError` instead of returning the summary. -/
theorem get_session_by_highlight_raises_on_hit :
    get_session_by_highlight sampleStore1 2 = .ok none ∧
    get_session_by_highlight sampleStore1 1 =
      .error "No item with that key: context_snippet" := by
  constructor <;> rfl

/-- C5: `insert_message` leaves the `ai_sessions` table untouched;
`update_session_preview` rewrites exactly the addressed row, setting its
`answer_preview` to the given text and `updated_at` to the current
clock, and keeps every other row. -/
theorem insert_message_preview_isolation (s : Store) (session_id : Nat)
    (role content preview : String) :
    (insert_message s session_id role content).1.sessions = s.sessions ∧
    (∀ r ∈ s.sessions, r.id = session_id →
      { r with answer_preview := some preview, updated_at := s.clock } ∈
        (update_session_preview s session_id preview).sessions) ∧
    (∀ r ∈ s.sessions, r.id ≠ session_id →
      r ∈ (update_session_preview s session_id preview).sessions) := by
  refine ⟨rfl, ?_, ?_⟩ <;> intro r hr hid <;>
    exact List.mem_map.mpr ⟨r, hr, by simp [hid]⟩

/-- Closed instance of the preview-isolation theorem at a one-session
store. -/
theorem insert_message_preview_isolation_witness :
    (insert_message sampleStore1 1 "assistant" "hello").1.sessions =
        sampleStore1.sessions ∧
    { sampleSession1 with answer_preview := some "p", updated_at := sampleStore1.clock }
      ∈ (update_session_preview sampleStore1 1 "p").sessions :=
  ⟨(insert_message_preview_isolation sampleStore1 1 "assistant" "hello" "p").1,
    (insert_message_preview_isolation sampleStore1 1 "assistant" "hello" "p").2.1
      sampleSession1 (by simp [sampleStore1]) rfl⟩

/-- C8: `delete_highlight` removes exactly the highlight row with the
given id, every session referencing it, and every message whose session
references it — and keeps everything else. -/
theorem delete_highlight_cascade (s : Store) (hid : Nat) :
    (∀ h, h ∈ (delete_highlight s hid).highlights ↔
        h ∈ s.highlights ∧ h.id ≠ hid) ∧
    (∀ r, r ∈ (delete_highlight s hid).sessions ↔
        r ∈ s.sessions ∧ r.highlight_id ≠ some hid) ∧
    (∀ m, m ∈ (delete_highlight s hid).messages ↔
        m ∈ s.messages ∧
          ∀ r ∈ s.sessions, r.highlight_id = some hid → m.session_id ≠ r.id) := by
  refine ⟨?_, ?_, ?_⟩ <;> intro a <;>
    simp only [delete_highlight, List.mem_filter, bne_iff_ne, ne_eq]
  rw [Bool.not_eq_true', ← Bool.not_eq_true, List.contains_iff_exists_mem_beq]
  simp only [List.mem_map, List.mem_filter, beq_iff_eq]
  constructor
  · rintro ⟨hm, hnone⟩
    refine ⟨hm, fun r hr hrhid hsid => hnone ?_⟩
    exact ⟨r.id, ⟨r, ⟨hr, by simp [hrhid]⟩, rfl⟩, hsid⟩
  · rintro ⟨hm, hall⟩
    refine ⟨hm, fun hex => ?_⟩
    obtain ⟨i, ⟨r, ⟨hr, hrhid⟩, rfl⟩, hsid⟩ := hex
    exact hall r hr (by simpa using hrhid) hsid

/-- Closed instance of the cascade theorem: after deleting highlight 1
from a store with a session on highlight 1 and one of its messages, the
session and the message are gone. -/
theorem delete_highlight_cascade_witness :
    sampleSession1 ∉ (delete_highlight sampleStore1 1).sessions ∧
    ({ id := 1, session_id := 1, role := "user", content := "q",
       created_at := 0 } : MessageRow) ∉
      (delete_highlight
        { sampleStore1 with
            messages := [{ id := 1, session_id := 1, role := "user",
                           content := "q", created_at := 0 }] } 1).messages := by
  constructor
  · intro hmem
    have := ((delete_highlight_cascade sampleStore1 1).2.1 sampleSession1).mp hmem
    exact this.2 rfl
  · intro hmem
    have := ((delete_highlight_cascade
      { sampleStore1 with
          messages := [{ id := 1, session_id := 1, role := "user",
                         content := "q", created_at := 0 }] } 1).2.2 _).mp hmem
    exact this.2 sampleSession1 (by simp [sampleStore1]) rfl rfl

/-- C9: in the ask-AI flow, when `create_session` raises after a
highlight was found-or-created, the compensating
`delete_highlight(highlight_id)` runs before the exception propagates:
the flow result is the error, and no highlight with the id produced by
the find-or-create step remains in the store. -/
theorem ask_flow_compensates (s0 : Store)
    (document_hash selected_text question_text context_snippet : String)
    (metadata : Option (List (String × String))) (bx by1 ex ey : ℚ) :
    (askFlowCreate s0 document_hash selected_text question_text
        (some (bx, by1, ex, ey)) context_snippet metadata true).2 =
      .error "create_session raised" ∧
    ∀ h ∈ (askFlowCreate s0 document_hash selected_text question_text
        (some (bx, by1, ex, ey)) context_snippet metadata true).1.highlights,
      h.id ≠ (insert_highlight s0 document_hash selected_text "v" bx by1 ex ey).2 := by
  refine ⟨rfl, fun h hmem => ?_⟩
  have : h ∈ (delete_highlight
      (insert_highlight s0 document_hash selected_text "v" bx by1 ex ey).1
      (insert_highlight s0 document_hash selected_text "v" bx by1 ex ey).2).highlights :=
    hmem
  simpa using (List.mem_filter.mp this).2

/-- Closed instance of the compensation theorem at the empty store. -/
theorem ask_flow_compensates_witness :
    (askFlowCreate emptyStore "doc" "sel" "q" (some (0, 0, 1, 1)) "" none true).2 =
      .error "create_session raised" ∧
    ({ id := 1, document_path := "doc", desc := "sel", type := "v",
       begin_x := 0, begin_y := 0, end_x := 1, end_y := 1,
       is_ai := true } : Highlight) ∉
      (askFlowCreate emptyStore "doc" "sel" "q" (some (0, 0, 1, 1)) "" none
          true).1.highlights :=
  ⟨(ask_flow_compensates emptyStore "doc" "sel" "q" "" none 0 0 1 1).1,
    fun hmem =>
      (ask_flow_compensates emptyStore "doc" "sel" "q" "" none 0 0 1 1).2 _ hmem rfl⟩

/-- C4: `list_sessions_for_document` returns the document's sessions
ordered by `updated_at` descending — three sessions with
`updated_at` values `T1 < T2 < T3` come back as `T3, T2, T1`. -/
theorem list_sessions_ordering (s : Store) (doc : String) (a b c : SessionRow)
    (hfilter : s.sessions.filter (fun r => r.document_path == doc) = [a, b, c])
    (hab : a.updated_at < b.updated_at) (hbc : b.updated_at < c.updated_at) :
    list_sessions_for_document s doc =
      [rowToSummary c, rowToSummary b, rowToSummary a] := by
  unfold list_sessions_for_document sortByUpdatedDesc
  rw [hfilter]
  have h1 : List.orderedInsert (fun x y : SessionRow => y.updated_at ≤ x.updated_at)
      b [c] = [c, b] := by
    simp only [List.orderedInsert]
    rw [if_neg (by omega : ¬ c.updated_at ≤ b.updated_at)]
  have h2 : List.orderedInsert (fun x y : SessionRow => y.updated_at ≤ x.updated_at)
      a [c, b] = [c, b, a] := by
    simp only [List.orderedInsert]
    rw [if_neg (by omega : ¬ c.updated_at ≤ a.updated_at),
      if_neg (by omega : ¬ b.updated_at ≤ a.updated_at)]
  simp only [List.insertionSort, List.orderedInsert_nil, h1, h2]
  rfl

/-- Closed instance of the session-ordering theorem on three concrete
rows with timestamps 0 < 1 < 2. -/
theorem list_sessions_ordering_witness :
    list_sessions_for_document
        { emptyStore with
            sessions :=
              [{ sampleSession1 with id := 1, updated_at := 0 },
               { sampleSession1 with id := 2, updated_at := 1 },
               { sampleSession1 with id := 3, updated_at := 2 }],
            nextSessionId := 4 } "doc" =
      [rowToSummary { sampleSession1 with id := 3, updated_at := 2 },
       rowToSummary { sampleSession1 with id := 2, updated_at := 1 },
       rowToSummary { sampleSession1 with id := 1, updated_at := 0 }] :=
  list_sessions_ordering _ "doc" _ _ _ (by rfl) (by decide) (by decide)

/-- The sort key order of `get_messages` is total. -/
instance : IsTotal MessageRow (fun a b => a.created_at ≤ b.created_at) :=
  ⟨fun a b => Nat.le_total a.created_at b.created_at⟩

/-- The sort key order of `get_messages` is transitive. -/
instance : IsTrans MessageRow (fun a b => a.created_at ≤ b.created_at) :=
  ⟨fun _ _ _ => Nat.le_trans⟩

/-- C6: `get_messages` returns the session's messages sorted by
`created_at` ascending, and three messages appended in sequence by
`insert_message` to a session with no prior messages come back in
insertion order, whatever their roles. -/
theorem get_messages_ordering (s : Store) (session_id : Nat)
    (role1 content1 role2 content2 role3 content3 : String)
    (hempty : s.messages.filter (fun m => m.session_id == session_id) = []) :
    (∀ (t : Store) (sid : Nat),
      List.Pairwise (fun m1 m2 : Message => m1.created_at ≤ m2.created_at)
        (get_messages t sid)) ∧
    get_messages
        (insert_message
          (insert_message
            (insert_message s session_id role1 content1).1
            session_id role2 content2).1
          session_id role3 content3).1 session_id =
      [{ role := role1, content := content1, created_at := s.clock },
       { role := role2, content := content2, created_at := s.clock + 1 },
       { role := role3, content := content3, created_at := s.clock + 2 }] := by
  constructor
  · intro t sid
    unfold get_messages sortByCreatedAsc
    have hs := List.sorted_insertionSort
      (fun a b : MessageRow => a.created_at ≤ b.created_at)
      (t.messages.filter (fun m => m.session_id == sid))
    exact List.Pairwise.map _ (fun _ _ h => h) hs
  · unfold get_messages sortByCreatedAsc insert_message
    simp only [List.filter_append, hempty, List.nil_append, List.filter_cons,
      beq_self_eq_true, if_pos, List.filter_nil]
    simp [List.insertionSort, List.orderedInsert]

/-- Closed instance of the message-ordering theorem: two user turns and
an assistant turn appended to the one-session store come back in
insertion order. -/
theorem get_messages_ordering_witness :
    get_messages
        (insert_message
          (insert_message
            (insert_message sampleStore1 1 "user" "q1").1 1 "assistant" "a1").1
          1 "user" "q2").1 1 =
      [{ role := "user", content := "q1", created_at := sampleStore1.clock },
       { role := "assistant", content := "a1", created_at := sampleStore1.clock + 1 },
       { role := "user", content := "q2", created_at := sampleStore1.clock + 2 }] :=
  (get_messages_ordering sampleStore1 1 "user" "q1" "assistant" "a1" "user" "q2"
    (by rfl)).2

/-- Auxiliary: `find?` skips a prefix on which the predicate is false. -/
theorem find?_append_of_forall_false {α : Type} (l1 l2 : List α) (p : α → Bool)
    (h : ∀ a ∈ l1, p a = false) : (l1 ++ l2).find? p = l2.find? p := by
  induction l1 with
  | nil => simp
  | cons a l ih =>
      have ha := h a (List.mem_cons_self a l)
      simp only [List.cons_append, List.find?_cons, ha]
      exact ih (fun x hx => h x (List.mem_cons_of_mem a hx))

/-- Auxiliary: the session row that `create_session` inserts
(definitionally the row literal inside `create_session`). -/
def createdRow (s : Store) (highlight_id : Option Nat) (doc sel q ctx : String)
    (meta : Option (List (String × String))) : SessionRow :=
  { id := s.nextSessionId
    highlight_id := highlight_id
    document_path := doc
    selection_text := some sel
    question := some q
    answer_preview := some ""
    context_snippet := if ctx = "" then none else some ctx
    metadata_json := some (meta.getD [])
    created_at := s.clock
    updated_at := s.clock }

/-- C7: `create_session` appends exactly one session row, whose
`answer_preview` is empty and whose `created_at` equals its
`updated_at` (the current clock), and returns the summary re-read from
the store under the store-assigned id. -/
theorem create_session_reads_back (s : Store) (highlight_id : Option Nat)
    (doc sel q ctx : String) (meta : Option (List (String × String)))
    (hwf : ∀ r ∈ s.sessions, r.id < s.nextSessionId) :
    (create_session s highlight_id doc sel q ctx meta).1.sessions.length =
        s.sessions.length + 1 ∧
    ∃ sum : SessionSummary,
      (create_session s highlight_id doc sel q ctx meta).2 = .ok sum ∧
      sum.answer_preview = "" ∧
      sum.created_at = s.clock ∧ sum.updated_at = s.clock ∧
      sum.id = s.nextSessionId ∧
      get_session_summary (create_session s highlight_id doc sel q ctx meta).1
        sum.id = .ok sum := by
  have hfind :
      (create_session s highlight_id doc sel q ctx meta).1.sessions.find?
          (fun r => r.id == s.nextSessionId) =
        some (createdRow s highlight_id doc sel q ctx meta) := by
    show (s.sessions ++ [createdRow s highlight_id doc sel q ctx meta]).find? _ = _
    rw [find?_append_of_forall_false _ _ _
      (fun r hr => by simpa using Nat.ne_of_lt (hwf r hr))]
    simp [createdRow]
  have hok : (create_session s highlight_id doc sel q ctx meta).2 =
      .ok (rowToSummary (createdRow s highlight_id doc sel q ctx meta)) := by
    show get_session_summary (create_session s highlight_id doc sel q ctx meta).1
        s.nextSessionId = _
    rw [get_session_summary, hfind]
  exact ⟨by simp [create_session],
    rowToSummary (createdRow s highlight_id doc sel q ctx meta),
    hok, rfl, rfl, rfl, rfl, hok⟩

/-- Closed instance of the read-after-write theorem at the empty store. -/
theorem create_session_reads_back_witness :
    (create_session emptyStore (some 1) "doc" "sel" "q" "" none).1.sessions.length =
        emptyStore.sessions.length + 1 ∧
    ∃ sum : SessionSummary,
      (create_session emptyStore (some 1) "doc" "sel" "q" "" none).2 = .ok sum ∧
      sum.answer_preview = "" ∧
      sum.created_at = emptyStore.clock ∧ sum.updated_at = emptyStore.clock ∧
      sum.id = emptyStore.nextSessionId ∧
      get_session_summary (create_session emptyStore (some 1) "doc" "sel" "q" "" none).1
        sum.id = .ok sum :=
  create_session_reads_back emptyStore (some 1) "doc" "sel" "q" "" none
    (by simp [emptyStore])

/-- Auxiliary: characterization of `List.max?` on naturals. -/
theorem max?_spec (l : List Nat) (n : Nat) :
    l.max? = some n ↔ n ∈ l ∧ ∀ m ∈ l, m ≤ n :=
  List.max?_eq_some_iff (fun a => Nat.le_refl a) (fun a b => max_choice a b)
    (fun _ _ _ => Nat.max_le)

/-- Auxiliary: `hlMatches` reads only the document and the coordinates,
which the dedup-path `UPDATE` preserves. -/
theorem hlMatches_update (doc : String) (bx by1 ex ey tol : ℚ)
    (sel ty : String) (i : Nat) (h : Highlight) :
    hlMatches doc bx by1 ex ey tol
        (if h.id = i then { h with desc := sel, type := ty, is_ai := true } else h) =
      hlMatches doc bx by1 ex ey tol h := by
  split <;> rfl

/-- Auxiliary: the dedup-path `UPDATE` preserves row ids. -/
theorem update_id (sel ty : String) (i : Nat) (h : Highlight) :
    (if h.id = i then { h with desc := sel, type := ty, is_ai := true } else h).id =
      h.id := by
  split <;> rfl

/-- Auxiliary: `find_highlight` returns `None` exactly when no highlight
of the document matches within tolerance. -/
theorem find_highlight_none_iff (s : Store) (doc : String) (bx by1 ex ey tol : ℚ) :
    find_highlight s doc bx by1 ex ey tol = none ↔
      ∀ h ∈ s.highlights, hlMatches doc bx by1 ex ey tol h = false := by
  unfold find_highlight
  rw [List.max?_eq_none_iff, List.map_eq_nil_iff, List.filter_eq_nil_iff]
  simp

/-- Auxiliary: `find_highlight` returns `some i` exactly when some
matching highlight has id `i` and every matching highlight has id at
most `i`. -/
theorem find_highlight_some_iff (s : Store) (doc : String) (bx by1 ex ey tol : ℚ)
    (i : Nat) :
    find_highlight s doc bx by1 ex ey tol = some i ↔
      ((∃ h ∈ s.highlights, hlMatches doc bx by1 ex ey tol h = true ∧ h.id = i) ∧
       ∀ h ∈ s.highlights, hlMatches doc bx by1 ex ey tol h = true → h.id ≤ i) := by
  unfold find_highlight
  rw [max?_spec]
  simp only [List.mem_map, List.mem_filter]
  constructor
  · rintro ⟨⟨h, ⟨hh, hp⟩, rfl⟩, hmax⟩
    exact ⟨⟨h, hh, hp, rfl⟩, fun h2 hh2 hp2 => hmax h2.id ⟨h2, ⟨hh2, hp2⟩, rfl⟩⟩
  · rintro ⟨⟨h, hh, hp, hid⟩, hmax⟩
    subst hid
    refine ⟨⟨h, ⟨hh, hp⟩, rfl⟩, ?_⟩
    rintro m ⟨h2, ⟨hh2, hp2⟩, rfl⟩
    exact hmax h2 hh2 hp2

/-- Auxiliary: the dedup-path `UPDATE` does not change what
`find_highlight` sees. -/
theorem find_highlight_after_update (s : Store) (doc : String)
    (bx by1 ex ey tol : ℚ) (sel ty : String) (i : Nat) :
    find_highlight
        { s with highlights := s.highlights.map (fun h =>
            if h.id = i then
              { h with desc := sel, type := ty, is_ai := true }
            else h) }
        doc bx by1 ex ey tol =
      find_highlight s doc bx by1 ex ey tol := by
  unfold find_highlight
  rw [List.filter_map, List.map_map]
  have hp : (hlMatches doc bx by1 ex ey tol) ∘ (fun h : Highlight =>
      if h.id = i then { h with desc := sel, type := ty, is_ai := true } else h) =
        hlMatches doc bx by1 ex ey tol :=
    funext fun h => hlMatches_update doc bx by1 ex ey tol sel ty i h
  have hg : ((fun h : Highlight => h.id) ∘ (fun h : Highlight =>
      if h.id = i then { h with desc := sel, type := ty, is_ai := true } else h)) =
        fun h : Highlight => h.id :=
    funext fun h => update_id sel ty i h
  rw [hp, hg]

/-- Auxiliary: a freshly inserted row matches its own coordinates. -/
theorem hlMatches_self (doc sel ty : String) (bx by1 ex ey : ℚ) (n : Nat) :
    hlMatches doc bx by1 ex ey (1/100)
      { id := n, document_path := doc, desc := sel, type := ty,
        begin_x := bx, begin_y := by1, end_x := ex, end_y := ey,
        is_ai := true } = true := by
  simp only [hlMatches]
  norm_num

/-- Auxiliary: the dedup branch of `insert_highlight` as an equation. -/
theorem insert_highlight_eq_update (s : Store) (doc sel ty : String)
    (bx by1 ex ey : ℚ) (i : Nat)
    (hfind : find_highlight s doc bx by1 ex ey = some i) :
    insert_highlight s doc sel ty bx by1 ex ey =
      ({ s with highlights := s.highlights.map (fun h =>
          if h.id = i then
            { h with desc := sel, type := ty, is_ai := true }
          else h) }, i) := by
  unfold insert_highlight
  rw [hfind]

/-- Auxiliary: the insert branch of `insert_highlight` as an equation. -/
theorem insert_highlight_eq_append (s : Store) (doc sel ty : String)
    (bx by1 ex ey : ℚ)
    (hfind : find_highlight s doc bx by1 ex ey = none) :
    insert_highlight s doc sel ty bx by1 ex ey =
      ({ s with
          highlights := s.highlights ++
            [{ id := s.nextHighlightId, document_path := doc, desc := sel,
               type := ty, begin_x := bx, begin_y := by1, end_x := ex,
               end_y := ey, is_ai := true }],
          nextHighlightId := s.nextHighlightId + 1 },
        s.nextHighlightId) := by
  unfold insert_highlight
  rw [hfind]

/-- C2: `insert_highlight` reuses an existing highlight exactly when one
matches all four coordinates within strictly less than 0.01: it then
returns the greatest matching id, rewrites that row's desc/type/is_ai,
and keeps the row count; otherwise it appends a fresh row under a new
id.  Repeating the call with identical coordinates returns the same id
without growing the table, while from a fresh document a second call
displaced by exactly the tolerance allocates a distinct new id. -/
theorem insert_highlight_dedup (s : Store) (doc sel ty sel2 ty2 : String)
    (bx by1 ex ey : ℚ)
    (hwf : ∀ h ∈ s.highlights, h.id < s.nextHighlightId) :
    (∀ i, find_highlight s doc bx by1 ex ey = some i →
      ((∃ h ∈ s.highlights, hlMatches doc bx by1 ex ey (1/100) h = true ∧ h.id = i) ∧
       (∀ h ∈ s.highlights, hlMatches doc bx by1 ex ey (1/100) h = true → h.id ≤ i) ∧
       (insert_highlight s doc sel ty bx by1 ex ey).2 = i ∧
       (insert_highlight s doc sel ty bx by1 ex ey).1.highlights.length =
         s.highlights.length ∧
       ∀ h ∈ s.highlights, h.id = i →
         { h with desc := sel, type := ty, is_ai := true } ∈
           (insert_highlight s doc sel ty bx by1 ex ey).1.highlights)) ∧
    (find_highlight s doc bx by1 ex ey = none →
      ((insert_highlight s doc sel ty bx by1 ex ey).2 = s.nextHighlightId ∧
       (∀ h ∈ s.highlights, h.id ≠ (insert_highlight s doc sel ty bx by1 ex ey).2) ∧
       (insert_highlight s doc sel ty bx by1 ex ey).1.highlights.length =
         s.highlights.length + 1)) ∧
    (find_highlight s doc bx by1 ex ey = none ↔
      ∀ h ∈ s.highlights, hlMatches doc bx by1 ex ey (1/100) h = false) ∧
    ((insert_highlight (insert_highlight s doc sel ty bx by1 ex ey).1
        doc sel2 ty2 bx by1 ex ey).2 =
      (insert_highlight s doc sel ty bx by1 ex ey).2 ∧
     (insert_highlight (insert_highlight s doc sel ty bx by1 ex ey).1
        doc sel2 ty2 bx by1 ex ey).1.highlights.length =
      (insert_highlight s doc sel ty bx by1 ex ey).1.highlights.length) ∧
    (s.highlights = [] →
      ((insert_highlight (insert_highlight s doc sel ty bx by1 ex ey).1
          doc sel2 ty2 (bx + 1/100) by1 ex ey).2 ≠
        (insert_highlight s doc sel ty bx by1 ex ey).2 ∧
       (insert_highlight (insert_highlight s doc sel ty bx by1 ex ey).1
          doc sel2 ty2 (bx + 1/100) by1 ex ey).1.highlights.length = 2)) := by
  refine ⟨?_, ?_, find_highlight_none_iff s doc bx by1 ex ey (1/100), ?_, ?_⟩
  · intro i hfind
    have hspec := (find_highlight_some_iff s doc bx by1 ex ey (1/100) i).mp hfind
    have e1 := insert_highlight_eq_update s doc sel ty bx by1 ex ey i hfind
    refine ⟨hspec.1, hspec.2, by rw [e1], ?_, ?_⟩
    · rw [e1]
      exact List.length_map s.highlights _
    · intro h hh hid
      rw [e1]
      exact List.mem_map.mpr ⟨h, hh, by simp [hid]⟩
  · intro hfind
    have e1 := insert_highlight_eq_append s doc sel ty bx by1 ex ey hfind
    refine ⟨by rw [e1], ?_, by rw [e1]; simp⟩
    intro h hh
    rw [e1]
    exact Nat.ne_of_lt (hwf h hh)
  · rcases hcase : find_highlight s doc bx by1 ex ey with _ | i
    · -- insert path: the new row matches itself, so the repeat dedups to it
      have e1 := insert_highlight_eq_append s doc sel ty bx by1 ex ey hcase
      have hfilter0 : s.highlights.filter
          (hlMatches doc bx by1 ex ey (1/100)) = [] :=
        List.filter_eq_nil_iff.mpr (fun h hh => by
          simpa using (find_highlight_none_iff s doc bx by1 ex ey (1/100)).mp
            hcase h hh)
      have hfind2 : find_highlight (insert_highlight s doc sel ty bx by1 ex ey).1
          doc bx by1 ex ey = some s.nextHighlightId := by
        rw [e1]
        unfold find_highlight
        rw [List.filter_append, hfilter0, List.nil_append,
          List.filter_cons_of_pos (hlMatches_self doc sel ty bx by1 ex ey
            s.nextHighlightId)]
        rfl
      have e2 := insert_highlight_eq_update
        (insert_highlight s doc sel ty bx by1 ex ey).1 doc sel2 ty2 bx by1 ex ey
        s.nextHighlightId hfind2
      constructor
      · rw [e2, e1]
      · rw [e2]
        exact List.length_map _ _
    · -- dedup path: the update preserves coordinates, so the repeat
      -- sees the same matches
      have e1 := insert_highlight_eq_update s doc sel ty bx by1 ex ey i hcase
      have hfind2 : find_highlight (insert_highlight s doc sel ty bx by1 ex ey).1
          doc bx by1 ex ey = some i := by
        rw [e1]
        rw [find_highlight_after_update s doc bx by1 ex ey (1/100) sel ty i]
        exact hcase
      have e2 := insert_highlight_eq_update
        (insert_highlight s doc sel ty bx by1 ex ey).1 doc sel2 ty2 bx by1 ex ey
        i hfind2
      constructor
      · rw [e2, e1]
      · rw [e2]
        exact List.length_map _ _
  · intro hempty
    have hfind1 : find_highlight s doc bx by1 ex ey = none := by
      unfold find_highlight
      rw [hempty]
      rfl
    have e1 := insert_highlight_eq_append s doc sel ty bx by1 ex ey hfind1
    have hnomatch : ¬ hlMatches doc (bx + 1/100) by1 ex ey (1/100)
        { id := s.nextHighlightId, document_path := doc, desc := sel,
          type := ty, begin_x := bx, begin_y := by1, end_x := ex,
          end_y := ey, is_ai := true } = true := by
      simp only [hlMatches]
      have habs : |bx - (bx + 1/100)| = (1/100 : ℚ) := by
        rw [show bx - (bx + 1/100) = -(1/100 : ℚ) by ring, abs_neg]
        norm_num
      simp [habs]
      rw [abs_of_pos (by norm_num : (0:ℚ) < 100⁻¹)]
    have hfind2 : find_highlight (insert_highlight s doc sel ty bx by1 ex ey).1
        doc (bx + 1/100) by1 ex ey = none := by
      rw [e1]
      unfold find_highlight
      show (((s.highlights ++ [_]).filter _).map _).max? = none
      rw [hempty, List.nil_append, List.filter_cons_of_neg hnomatch,
        List.filter_nil]
      rfl
    have e2 := insert_highlight_eq_append
      (insert_highlight s doc sel ty bx by1 ex ey).1 doc sel2 ty2 (bx + 1/100)
      by1 ex ey hfind2
    constructor
    · rw [e2, e1]
      simp
    · rw [e2, e1]
      simp [hempty]

/-- Closed instance of the dedup theorem at the empty store: repeating
an insert with identical coordinates returns the same id, while a
repeat displaced by exactly the tolerance returns a different id. -/
theorem insert_highlight_dedup_witness :
    (∀ h ∈ emptyStore.highlights, h.id < emptyStore.nextHighlightId) ∧
    (insert_highlight (insert_highlight emptyStore "doc" "s" "v" 0 0 1 1).1
        "doc" "s2" "v" 0 0 1 1).2 =
      (insert_highlight emptyStore "doc" "s" "v" 0 0 1 1).2 ∧
    (insert_highlight (insert_highlight emptyStore "doc" "s" "v" 0 0 1 1).1
        "doc" "s2" "v" (0 + 1/100) 0 1 1).2 ≠
      (insert_highlight emptyStore "doc" "s" "v" 0 0 1 1).2 :=
  ⟨fun h hh => absurd hh (by simp [emptyStore]),
   (insert_highlight_dedup emptyStore "doc" "s" "v" "s2" "v" 0 0 1 1
      (fun h hh => absurd hh (by simp [emptyStore]))).2.2.2.1.1,
   ((insert_highlight_dedup emptyStore "doc" "s" "v" "s2" "v" 0 0 1 1
      (fun h hh => absurd hh (by simp [emptyStore]))).2.2.2.2 rfl).1⟩

/-! Lemmas about the `find_highlight_near` loop. -/

/-- Auxiliary: merging the best survivor of the remaining list into the
running accumulator of the `find_highlight_near` loop. -/
def mergeAcc (sc : Highlight → ℚ) (fm : Option Highlight)
    (acc : Option (Highlight × ℚ)) : Option (Highlight × ℚ) :=
  match fm with
  | none => acc
  | some m =>
      match acc with
      | none => some (m, sc m)
      | some b => if sc m < b.2 then some (m, sc m) else some b

/-- Auxiliary: the spec-side score agrees with the loop's
`vertical_penalty * 2 + horizontal_penalty`. -/
theorem specScore_eq_loop (x y tol : ℚ) (h : Highlight) :
    specScore x y tol h =
      (if min h.begin_y h.end_y ≤ y ∧ y ≤ max h.begin_y h.end_y then (0:ℚ)
       else min |y - min h.begin_y h.end_y| |y - max h.begin_y h.end_y|) * 2 +
      (if min h.begin_x h.end_x - tol ≤ x ∧ x ≤ max h.begin_x h.end_x + tol
       then (0:ℚ)
       else min |x - min h.begin_x h.end_x| |x - max h.begin_x h.end_x|) := by
  simp only [specScore]
  ring

/-- Auxiliary: one `find_highlight_near` iteration, expressed through the
spec-side gate and score. -/
theorem fhnStep_eq (x y tol : ℚ) (ht : Option String) (rai : Bool)
    (acc : Option (Highlight × ℚ)) (h : Highlight) :
    fhnStep x y tol ht rai acc h =
      if specSurvives y tol ht rai h = true then
        match acc with
        | none => some (h, specScore x y tol h)
        | some b =>
            if specScore x y tol h < b.2 then some (h, specScore x y tol h)
            else some b
      else acc := by
  unfold fhnStep
  by_cases h1 : (ht.getD "") ≠ "" ∧ h.type ≠ ht.getD ""
  · rw [if_pos h1, if_neg]
    simp [specSurvives, h1]
  · rw [if_neg h1]
    by_cases h2 : (rai && !h.is_ai) = true
    · rw [if_pos h2, if_neg]
      simp [specSurvives, h1, h2]
    · rw [if_neg h2]
      by_cases h3 : min h.begin_y h.end_y - tol ≤ y ∧ y ≤ max h.begin_y h.end_y + tol
      · have h2f : (rai && !h.is_ai) = false := by simpa using h2
        have hs : specSurvives y tol ht rai h = true := by
          simp [specSurvives, h1, h2f, h3]
        rw [if_neg (not_not_intro h3), if_pos hs, specScore_eq_loop x y tol h]
        rcases acc with _ | b <;> rfl
      · rw [if_pos h3, if_neg]
        intro hcontra
        unfold specSurvives at hcontra
        simp only [Bool.and_eq_true, decide_eq_true_eq] at hcontra
        exact h3 hcontra.2

/-- Auxiliary: folding one surviving candidate into the accumulator and
then merging the best of the rest is the same as merging the best of the
whole list. -/
theorem mergeAcc_after_step (sc : Highlight → ℚ) (fm : Option Highlight)
    (h : Highlight) (acc : Option (Highlight × ℚ)) :
    mergeAcc sc fm
        (match acc with
          | none => some (h, sc h)
          | some b => if sc h < b.2 then some (h, sc h) else some b) =
      mergeAcc sc
        (match fm with
          | none => some h
          | some q => if sc q < sc h then some q else some h)
        acc := by
  rcases fm with _ | q <;> rcases acc with _ | b
  · rfl
  · rfl
  · simp only [mergeAcc]
    split_ifs <;> rfl
  · simp only [mergeAcc]
    split_ifs <;>
      first
        | rfl
        | (exfalso; linarith)
        | (simp only [mergeAcc]; split_ifs <;> first | rfl | (exfalso; linarith))

/-- Auxiliary: the `find_highlight_near` loop computes the first
strict minimum of the surviving candidates, merged into the running
accumulator. -/
theorem foldl_fhn_eq (x y tol : ℚ) (ht : Option String) (rai : Bool)
    (l : List Highlight) (acc : Option (Highlight × ℚ)) :
    l.foldl (fhnStep x y tol ht rai) acc =
      mergeAcc (specScore x y tol)
        (firstMinBy (specScore x y tol) (l.filter (specSurvives y tol ht rai)))
        acc := by
  induction l generalizing acc with
  | nil => rfl
  | cons h t ih =>
      rw [List.foldl_cons, ih (fhnStep x y tol ht rai acc h), fhnStep_eq]
      rcases hs : specSurvives y tol ht rai h with _ | _
      · rw [if_neg (by simp [hs]), List.filter_cons_of_neg (by simp [hs])]
      · rw [if_pos rfl, List.filter_cons_of_pos hs,
          show firstMinBy (specScore x y tol)
              (h :: t.filter (specSurvives y tol ht rai)) =
            (match firstMinBy (specScore x y tol)
                (t.filter (specSurvives y tol ht rai)) with
              | none => some h
              | some b =>
                  if specScore x y tol b < specScore x y tol h then some b
                  else some h) from rfl]
        exact mergeAcc_after_step (specScore x y tol)
          (firstMinBy (specScore x y tol)
            (t.filter (specSurvives y tol ht rai))) h acc

/-- Auxiliary: `firstMinBy` is `none` exactly on the empty list. -/
theorem firstMinBy_eq_none_iff (sc : Highlight → ℚ) (l : List Highlight) :
    firstMinBy sc l = none ↔ l = [] := by
  cases l with
  | nil => simp [firstMinBy]
  | cons h t =>
      simp only [firstMinBy]
      rcases hfm : firstMinBy sc t with _ | q
      · simp [hfm]
      · simp only [hfm]
        split_ifs <;> simp

/-- Auxiliary: a `firstMinBy` result is a member of minimal score. -/
theorem firstMinBy_mem_min (sc : Highlight → ℚ) (l : List Highlight)
    (m : Highlight) (hm : firstMinBy sc l = some m) :
    m ∈ l ∧ ∀ a ∈ l, sc m ≤ sc a := by
  induction l generalizing m with
  | nil => exact Option.noConfusion hm
  | cons h t ih =>
      simp only [firstMinBy] at hm
      rcases hfm : firstMinBy sc t with _ | q <;> simp only [hfm] at hm
      · have ht : t = [] := (firstMinBy_eq_none_iff sc t).mp hfm
        subst ht
        injection hm with hm2
        subst hm2
        exact ⟨List.mem_cons_self h [], by simp⟩
      · obtain ⟨hqmem, hqmin⟩ := ih q hfm
        split_ifs at hm with hlt
        · injection hm with hm2
          subst hm2
          refine ⟨List.mem_cons_of_mem h hqmem, fun a ha => ?_⟩
          rcases List.mem_cons.mp ha with rfl | ha2
          · exact le_of_lt hlt
          · exact hqmin a ha2
        · injection hm with hm2
          subst hm2
          refine ⟨List.mem_cons_self h t, fun a ha => ?_⟩
          rcases List.mem_cons.mp ha with rfl | ha2
          · exact le_refl _
          · exact le_trans (not_lt.mp hlt) (hqmin a ha2)

/-- C3: `find_highlight_near` selects among the document's highlights
passing the type and AI filters exactly those inside the vertical band
`min_y - tolerance ≤ y ≤ max_y + tolerance` on the min/max-normalized
rectangle, scores each survivor `2 × vertical + horizontal` penalty, and
returns the first-seen survivor of strictly minimal score — `None`
exactly when no candidate survives. -/
theorem find_highlight_near_spec (s : Store) (doc : String) (x y tol : ℚ)
    (ht : Option String) (rai : Bool) :
    find_highlight_near s doc x y tol ht rai = specFindNear s doc x y tol ht rai ∧
    (find_highlight_near s doc x y tol ht rai = none ↔
      ∀ h ∈ s.highlights.filter (fun h2 => h2.document_path == doc),
        specSurvives y tol ht rai h = false) ∧
    (∀ hb, find_highlight_near s doc x y tol ht rai = some hb →
      specSurvives y tol ht rai hb = true ∧
      hb ∈ s.highlights.filter (fun h2 => h2.document_path == doc) ∧
      ∀ h ∈ (s.highlights.filter (fun h2 => h2.document_path == doc)).filter
          (specSurvives y tol ht rai),
        specScore x y tol hb ≤ specScore x y tol h) := by
  have hmain : find_highlight_near s doc x y tol ht rai =
      specFindNear s doc x y tol ht rai := by
    unfold find_highlight_near specFindNear
    rw [foldl_fhn_eq]
    rcases hfm : firstMinBy (specScore x y tol)
        ((s.highlights.filter (fun h2 => h2.document_path == doc)).filter
          (specSurvives y tol ht rai)) with _ | m <;>
      simp only [hfm] <;> rfl
  refine ⟨hmain, ?_, ?_⟩
  · rw [hmain]
    unfold specFindNear
    rw [firstMinBy_eq_none_iff, List.filter_eq_nil_iff]
    simp [Bool.not_eq_true]
  · intro hb hsome
    rw [hmain] at hsome
    unfold specFindNear at hsome
    obtain ⟨hmem, hmin⟩ := firstMinBy_mem_min _ _ _ hsome
    exact ⟨(List.mem_filter.mp hmem).2, (List.mem_filter.mp hmem).1, hmin⟩

/-- A one-highlight store used by concrete instances. -/
def hlW : Highlight :=
  { id := 1, document_path := "doc", desc := "d", type := "v",
    begin_x := 0, begin_y := 0, end_x := 1, end_y := 1, is_ai := true }

/-- A store holding exactly `hlW`. -/
def fhnStoreW : Store :=
  { emptyStore with highlights := [hlW], nextHighlightId := 2 }

/-- Closed instance of the `find_highlight_near` characterization at a
one-highlight store, with the selected candidate evaluated. -/
theorem find_highlight_near_spec_witness :
    find_highlight_near fhnStoreW "doc" 0 0 48 none false =
      specFindNear fhnStoreW "doc" 0 0 48 none false ∧
    find_highlight_near fhnStoreW "doc" 0 0 48 none false = some hlW := by
  have hmain := (find_highlight_near_spec fhnStoreW "doc" 0 0 48 none false).1
  have hsurv : specSurvives 0 48 none false hlW = true := by
    have hmin : min (0:ℚ) 1 = 0 := min_eq_left (by norm_num)
    have hmax : max (0:ℚ) 1 = 1 := max_eq_right (by norm_num)
    simp only [specSurvives, hlW]
    norm_num [hmin, hmax]
  refine ⟨hmain, ?_⟩
  rw [hmain]
  show firstMinBy _ (List.filter _ (List.filter _ [hlW])) = some hlW
  rw [List.filter_cons_of_pos (by simp [hlW]), List.filter_nil,
    List.filter_cons_of_pos hsurv, List.filter_nil]
  rfl

/-! Orientation behaviour: `find_highlight` compares corner to corner,
`find_highlight_near` normalizes the rectangle. -/

/-- Exchanging the begin and end corners of a highlight record. -/
def swapCorners (h : Highlight) : Highlight :=
  { h with begin_x := h.end_x, begin_y := h.end_y,
           end_x := h.begin_x, end_y := h.begin_y }

/-- Auxiliary: one `find_highlight_near` iteration is invariant under
corner exchange, because it only reads the min/max-normalized
rectangle. -/
theorem fhnStep_swap (x y tol : ℚ) (ht : Option String) (rai : Bool)
    (acc : Option (Highlight × ℚ)) (r : Highlight) :
    fhnStep x y tol ht rai (acc.map (fun p => (swapCorners p.1, p.2)))
        (swapCorners r) =
      (fhnStep x y tol ht rai acc r).map (fun p => (swapCorners p.1, p.2)) := by
  unfold fhnStep
  simp only [swapCorners]
  rw [min_comm r.end_x r.begin_x, max_comm r.end_x r.begin_x,
    min_comm r.end_y r.begin_y, max_comm r.end_y r.begin_y]
  rcases acc with _ | b <;>
    simp only [Option.map_some', Option.map_none'] <;> split_ifs <;> rfl

/-- Auxiliary: the whole `find_highlight_near` loop commutes with corner
exchange of every candidate. -/
theorem foldl_fhn_swap (x y tol : ℚ) (ht : Option String) (rai : Bool)
    (l : List Highlight) (acc : Option (Highlight × ℚ)) :
    (l.map swapCorners).foldl (fhnStep x y tol ht rai)
        (acc.map (fun p => (swapCorners p.1, p.2))) =
      (l.foldl (fhnStep x y tol ht rai) acc).map
        (fun p => (swapCorners p.1, p.2)) := by
  induction l generalizing acc with
  | nil => rfl
  | cons r t ih =>
      rw [List.map_cons, List.foldl_cons, List.foldl_cons, fhnStep_swap]
      exact ih _

/-- C10: the exact-match search compares begin to begin and end to end
without normalizing: a stored highlight whose corners are more than 0.01
apart on some axis is not matched by the same rectangle queried with the
corners exchanged, so on a store holding only that highlight
`find_highlight` returns `None` and `insert_highlight` adds a second row
for the geometrically identical selection — while `find_highlight_near`
treats both orientations identically. -/
theorem find_highlight_orientation (s : Store) (h : Highlight) (sel ty : String)
    (hsep : 1/100 < |h.begin_x - h.end_x| ∨ 1/100 < |h.begin_y - h.end_y|)
    (hstore : s.highlights = [h]) :
    hlMatches h.document_path h.end_x h.end_y h.begin_x h.begin_y (1/100) h =
      false ∧
    find_highlight s h.document_path h.end_x h.end_y h.begin_x h.begin_y =
      none ∧
    (insert_highlight s h.document_path sel ty h.end_x h.end_y h.begin_x
        h.begin_y).1.highlights.length = 2 ∧
    (∀ (t : Store) (doc : String) (x y tol : ℚ) (ht : Option String)
        (rai : Bool),
      find_highlight_near { t with highlights := t.highlights.map swapCorners }
          doc x y tol ht rai =
        (find_highlight_near t doc x y tol ht rai).map swapCorners) := by
  have hmatch : hlMatches h.document_path h.end_x h.end_y h.begin_x h.begin_y
      (1/100) h = false := by
    simp only [hlMatches, beq_self_eq_true, Bool.true_and, Bool.and_eq_false_iff,
      decide_eq_false_iff_not, not_lt]
    rcases hsep with hx | hy
    · exact Or.inl (Or.inl (Or.inl (le_of_lt hx)))
    · exact Or.inl (Or.inl (Or.inr (le_of_lt hy)))
  have hfind : find_highlight s h.document_path h.end_x h.end_y h.begin_x
      h.begin_y = none := by
    unfold find_highlight
    rw [hstore, List.filter_cons_of_neg (by rw [hmatch]; simp), List.filter_nil]
    rfl
  refine ⟨hmatch, hfind, ?_, ?_⟩
  · rw [insert_highlight_eq_append s h.document_path sel ty h.end_x h.end_y
      h.begin_x h.begin_y hfind]
    simp [hstore]
  · intro t doc x y tol ht rai
    unfold find_highlight_near
    rw [List.filter_map]
    rw [show ((fun h2 : Highlight => h2.document_path == doc) ∘ swapCorners) =
      (fun h2 : Highlight => h2.document_path == doc) from funext fun r => rfl]
    nth_rewrite 1 [show (none : Option (Highlight × ℚ)) =
      Option.map (fun p : Highlight × ℚ => (swapCorners p.1, p.2)) none from rfl]
    rw [foldl_fhn_swap]
    rcases hfold : (t.highlights.filter (fun h2 => h2.document_path == doc)).foldl
        (fhnStep x y tol ht rai) none with _ | p <;> simp [hfold]

/-- Closed instance of the orientation theorem at the one-highlight
store: the swapped query misses the stored row. -/
theorem find_highlight_orientation_witness :
    (1/100 < |hlW.begin_x - hlW.end_x| ∨ 1/100 < |hlW.begin_y - hlW.end_y|) ∧
    hlMatches hlW.document_path hlW.end_x hlW.end_y hlW.begin_x hlW.begin_y
      (1/100) hlW = false ∧
    find_highlight fhnStoreW hlW.document_path hlW.end_x hlW.end_y hlW.begin_x
      hlW.begin_y = none :=
  ⟨Or.inl (by norm_num [hlW]),
   (find_highlight_orientation fhnStoreW hlW "d" "v"
      (Or.inl (by norm_num [hlW])) rfl).1,
   (find_highlight_orientation fhnStoreW hlW "d" "v"
      (Or.inl (by norm_num [hlW])) rfl).2.1⟩

end SioyekAI
